import Mathlib

/-!
Verification development for the collaborative drawing application
(src/js/canvas-engine.js, app.js, history.js, collaboration.js, group.js).

Modelling conventions:
* JavaScript numbers are modelled as exact rationals; NaN and Infinity are
  outside the model.
* JavaScript truthiness is modelled explicitly: for numbers 0 is falsy, for
  strings the empty string is falsy, and a possibly-undefined value is an
  Option.  The helpers jsOrNum and jsOrStr embed the pattern a || b.
* Object identity (references) is proxied by the shape id; scene lists are
  assumed to hold distinct ids where a proof needs to locate an aliased
  object, which mirrors how the application generates ids.
* Math.random based id generation is nondeterministic; a freshly generated id
  is passed to the embedded function as an explicit freshId argument.
* DOM, canvas painting and network sends have no effect on the modelled state
  and are dropped; Math.sqrt, Math.atan2, Math.PI and the canvas text-measure
  primitive are irrational-valued and are passed in as an Ambient record of
  abstract functions.
-/

namespace Figma

/-- Scalars of the embedding: JavaScript numbers modelled as exact rationals. -/
abbrev Num := ℚ

/-- JavaScript expression a || b where a is a possibly-undefined number:
undefined and 0 are falsy. -/
def jsOrNum : Option Num → Num → Num
  | none, b => b
  | some a, b => if a = 0 then b else a

/-- JavaScript expression a || b where a is a possibly-undefined string:
undefined and the empty string are falsy. -/
def jsOrStr : Option String → String → String
  | none, b => b
  | some a, b => if a = "" then b else a

/-- Abstract interface to the irrational-valued primitives the code uses:
Math.sqrt, Math.atan2, Math.PI, and the canvas measureText width (a function
of the text, the font size and the font family). -/
structure Ambient where
  sqrt : Num → Num
  atan2 : Num → Num → Num
  pi : Num
  measure : String → Num → String → Num

/-- The properties argument accepted by every shape constructor
(canvas-engine.js, Shape constructor): each key may be absent. -/
structure Props where
  rotation : Option Num := none
  fillColor : Option String := none
  strokeColor : Option String := none
  strokeWidth : Option Num := none
  opacity : Option Num := none
  cornerRadius : Option Num := none
  visible : Option Bool := none
  points : Option Num := none
  fontSize : Option Num := none
  fontFamily : Option String := none
deriving DecidableEq, Repr

/-- Variant-specific data of each shape subclass of canvas-engine.js. -/
inductive Variant where
  | rectangle (width height : Num)
  | circle (radius : Num)
  | line (x1 y1 x2 y2 : Num)
  | text (content : String) (fontSize : Num) (fontFamily : String)
  | star (outerRadius innerRadius points : Num)
  | triangle (size : Num)
  | arrow (width height : Num)
deriving DecidableEq, Repr

/-- The type tag string carried by each shape (this.type in the source). -/
def Variant.typeName : Variant → String
  | .rectangle .. => "rectangle"
  | .circle .. => "circle"
  | .line .. => "line"
  | .text .. => "text"
  | .star .. => "star"
  | .triangle .. => "triangle"
  | .arrow .. => "arrow"

/-- A shape object: the base-class fields of canvas-engine.js Shape plus the
variant payload of the concrete subclass. -/
structure Shape where
  id : String
  x : Num
  y : Num
  rotation : Num
  fillColor : String
  strokeColor : String
  strokeWidth : Num
  opacity : Num
  cornerRadius : Num
  visible : Bool
  variant : Variant
deriving DecidableEq, Repr

/-- Embeds the Shape base-class constructor (canvas-engine.js lines 477-489).
The id is generated from Math.random in the source and enters the model as
freshId. -/
def mkShapeBase (freshId : String) (x y : Num) (p : Props) (v : Variant) : Shape :=
  { id := freshId
    x := x
    y := y
    rotation := jsOrNum p.rotation 0
    fillColor := jsOrStr p.fillColor "#0d99ff"
    strokeColor := jsOrStr p.strokeColor "#333333"
    strokeWidth := jsOrNum p.strokeWidth 1
    opacity := p.opacity.getD 1
    cornerRadius := jsOrNum p.cornerRadius 0
    visible := p.visible.getD true
    variant := v }

/-- Embeds new Rectangle(x, y, width, height, properties). -/
def mkRectangle (freshId : String) (x y width height : Num) (p : Props) : Shape :=
  mkShapeBase freshId x y p (.rectangle width height)

/-- Embeds new Circle(x, y, radius, properties). -/
def mkCircle (freshId : String) (x y radius : Num) (p : Props) : Shape :=
  mkShapeBase freshId x y p (.circle radius)

/-- Embeds new Line(x1, y1, x2, y2, properties); the base position is the
midpoint of the endpoints. -/
def mkLine (freshId : String) (x1 y1 x2 y2 : Num) (p : Props) : Shape :=
  mkShapeBase freshId ((x1 + x2) / 2) ((y1 + y2) / 2) p (.line x1 y1 x2 y2)

/-- Embeds new Text(x, y, text, properties); this.text = text || 'Text'. -/
def mkText (freshId : String) (x y : Num) (content : Option String) (p : Props) : Shape :=
  mkShapeBase freshId x y p
    (.text (jsOrStr content "Text") (jsOrNum p.fontSize 32) (jsOrStr p.fontFamily "Arial"))

/-- Embeds new Star(x, y, outerRadius, properties); the constructor always
recomputes innerRadius as outerRadius * 0.4 and defaults points to 5. -/
def mkStar (freshId : String) (x y outerRadius : Num) (p : Props) : Shape :=
  mkShapeBase freshId x y p
    (.star outerRadius (outerRadius * (2 / 5)) (jsOrNum p.points 5))

/-- Embeds new Triangle(x, y, size, properties). -/
def mkTriangle (freshId : String) (x y size : Num) (p : Props) : Shape :=
  mkShapeBase freshId x y p (.triangle size)

/-- Embeds new Arrow(x, y, width, height, properties). -/
def mkArrow (freshId : String) (x y width height : Num) (p : Props) : Shape :=
  mkShapeBase freshId x y p (.arrow width height)

/-- The portable record a shape serializes to (the object literal returned by
toJSON).  Keys that only some variants emit are Options; none models an
absent key, matching JSON object equality. -/
structure ShapeRecord where
  id : String
  type : String
  x : Num
  y : Num
  rotation : Num
  fillColor : String
  strokeColor : String
  strokeWidth : Num
  opacity : Num
  cornerRadius : Num
  visible : Bool
  width : Option Num := none
  height : Option Num := none
  radius : Option Num := none
  x1 : Option Num := none
  y1 : Option Num := none
  x2 : Option Num := none
  y2 : Option Num := none
  text : Option String := none
  fontSize : Option Num := none
  fontFamily : Option String := none
  outerRadius : Option Num := none
  innerRadius : Option Num := none
  points : Option Num := none
  size : Option Num := none
deriving DecidableEq, Repr

/-- Embeds toJSON of each shape subclass: the base record spread plus the
variant-specific fields. -/
def Shape.toJSON (s : Shape) : ShapeRecord :=
  let base : ShapeRecord :=
    { id := s.id, type := s.variant.typeName, x := s.x, y := s.y
      rotation := s.rotation, fillColor := s.fillColor, strokeColor := s.strokeColor
      strokeWidth := s.strokeWidth, opacity := s.opacity
      cornerRadius := s.cornerRadius, visible := s.visible }
  match s.variant with
  | .rectangle w h => { base with width := some w, height := some h }
  | .circle r => { base with radius := some r }
  | .line a b c d => { base with x1 := some a, y1 := some b, x2 := some c, y2 := some d }
  | .text t fs ff => { base with text := some t, fontSize := some fs, fontFamily := some ff }
  | .star o i pts =>
      { base with outerRadius := some o, innerRadius := some i, points := some pts }
  | .triangle sz => { base with size := some sz }
  | .arrow w h => { base with width := some w, height := some h }

/-- View of a record as the properties object it is spread into when the
per-class fromJSON passes the whole data record as the properties argument. -/
def ShapeRecord.toProps (d : ShapeRecord) : Props :=
  { rotation := some d.rotation
    fillColor := some d.fillColor
    strokeColor := some d.strokeColor
    strokeWidth := some d.strokeWidth
    opacity := some d.opacity
    cornerRadius := some d.cornerRadius
    visible := some d.visible
    points := d.points
    fontSize := d.fontSize
    fontFamily := d.fontFamily }

/-- Embeds the static Shape.fromJSON dispatcher (canvas-engine.js lines
539-558) together with the per-class fromJSON constructors it calls.  An
unknown type tag returns none, as in the source.  A record that lacks the
size fields its variant constructor reads would propagate undefined through
arithmetic in JavaScript; such records are outside the model, so the
embedding also returns none for them.  The reconstructed shape receives a
freshly generated id (the base constructor never reads data.id). -/
def Shape.fromJSON (freshId : String) (d : ShapeRecord) : Option Shape :=
  match d.type with
  | "rectangle" => do
      let w ← d.width
      let h ← d.height
      return mkRectangle freshId d.x d.y w h d.toProps
  | "circle" => do
      let r ← d.radius
      return mkCircle freshId d.x d.y r d.toProps
  | "line" => do
      let a ← d.x1
      let b ← d.y1
      let c ← d.x2
      let e ← d.y2
      return mkLine freshId a b c e d.toProps
  | "text" => return mkText freshId d.x d.y d.text d.toProps
  | "star" => do
      let o ← d.outerRadius
      return mkStar freshId d.x d.y o d.toProps
  | "triangle" => do
      let sz ← d.size
      return mkTriangle freshId d.x d.y sz d.toProps
  | "arrow" => do
      let w ← d.width
      let h ← d.height
      return mkArrow freshId d.x d.y w h d.toProps
  | _ => none

/-- An axis-aligned bounding box as returned by getBounds. -/
structure Bounds where
  x : Num
  y : Num
  width : Num
  height : Num
deriving DecidableEq, Repr

/-- Embeds getBounds of each shape subclass.  The text variant measures its
width through the ambient canvas primitive; the triangle height uses
Math.sqrt(3). -/
def Shape.getBounds (amb : Ambient) (s : Shape) : Bounds :=
  match s.variant with
  | .rectangle w h => ⟨s.x - w / 2, s.y - h / 2, w, h⟩
  | .circle r => ⟨s.x - r, s.y - r, r * 2, r * 2⟩
  | .line a b c d => ⟨min a c, min b d, max a c - min a c, max b d - min b d⟩
  | .text t fs ff =>
      let w := amb.measure t fs ff
      ⟨s.x - w / 2, s.y - fs / 2, w, fs⟩
  | .star o _ _ => ⟨s.x - o, s.y - o, o * 2, o * 2⟩
  | .triangle sz =>
      let h := sz * amb.sqrt 3 / 2
      ⟨s.x - sz / 2, s.y - h / 2, sz, h⟩
  | .arrow w h => ⟨s.x - w / 2, s.y - h / 2, w, h⟩

/-- The current selection of the engine: null, a single shape reference, or an
array of references.  References are proxied by shape ids. -/
inductive Selection where
  | none
  | single (id : String)
  | multi (ids : List String)
deriving DecidableEq, Repr

/-- The CanvasEngine state relevant to the scene: the shape list, the
selection, the camera, and the canvas geometry consulted by the coordinate
transforms (clientWidth/Height and the bounding-rect offset). -/
structure Engine where
  shapes : List Shape
  selectedShape : Selection
  zoom : Num
  pan : Num × Num
  canvasWidth : Num
  canvasHeight : Num
  canvasLeft : Num
  canvasTop : Num
deriving DecidableEq, Repr

/-- Finds the first shape whose id matches, as Array.prototype.find does. -/
def findById (sid : String) : List Shape → Option Shape
  | [] => Option.none
  | s :: rest => if s.id = sid then some s else findById sid rest

/-- Applies a function to the first shape whose id matches, leaving the rest
unchanged: the functional image of mutating an aliased object in place. -/
def updateFirstById (sid : String) (f : Shape → Shape) : List Shape → List Shape
  | [] => []
  | s :: rest => if s.id = sid then f s :: rest else s :: updateFirstById sid f rest

/-- Removes the first shape whose id matches, as splice(indexOf(shape), 1)
does for a reference that occurs once. -/
def removeFirstById (sid : String) : List Shape → List Shape
  | [] => []
  | s :: rest => if s.id = sid then rest else s :: removeFirstById sid rest

/-- Embeds CanvasEngine.addShape: push onto the shape list. -/
def Engine.addShape (e : Engine) (s : Shape) : Engine :=
  { e with shapes := e.shapes ++ [s] }

/-- Embeds CanvasEngine.removeShape: splice the shape out when present and
clear the selection when it was the single selected shape. -/
def Engine.removeShape (e : Engine) (sid : String) : Engine :=
  if e.shapes.any (fun s => s.id = sid) then
    { e with
        shapes := removeFirstById sid e.shapes
        selectedShape := if e.selectedShape = .single sid then .none else e.selectedShape }
  else e

/-- Embeds CanvasEngine.selectMultiple. -/
def Engine.selectMultiple (e : Engine) (shapes : List Shape) : Engine :=
  match shapes with
  | [] => { e with selectedShape := .none }
  | [s] => { e with selectedShape := .single s.id }
  | _ => { e with selectedShape := .multi (shapes.map Shape.id) }

/-- Embeds CanvasEngine.getShapesInRect: shapes whose bounds are fully
contained in the normalized rectangle. -/
def Engine.getShapesInRect (amb : Ambient) (e : Engine) (x1 y1 x2 y2 : Num) : List Shape :=
  let minX := min x1 x2
  let minY := min y1 y2
  let maxX := max x1 x2
  let maxY := max y1 y2
  e.shapes.filter fun s =>
    let b := s.getBounds amb
    decide (b.x ≥ minX) && decide (b.y ≥ minY) &&
    decide (b.x + b.width ≤ maxX) && decide (b.y + b.height ≤ maxY)

/-- Embeds CanvasEngine.screenToCanvas. -/
def Engine.screenToCanvas (e : Engine) (screenX screenY : Num) : Num × Num :=
  ((screenX - e.canvasWidth / 2 - e.pan.1 * e.zoom) / e.zoom,
   (screenY - e.canvasHeight / 2 - e.pan.2 * e.zoom) / e.zoom)

/-- Embeds CanvasEngine.setZoom (canvas-engine.js lines 361-364): the zoom
factor is clamped to the closed interval from 0.1 to 5. -/
def Engine.setZoom (e : Engine) (z : Num) : Engine :=
  { e with zoom := max (1 / 10) (min 5 z) }

/-- Embeds CanvasEngine.zoomIn: multiply by 1.2 through setZoom. -/
def Engine.zoomIn (e : Engine) : Engine :=
  e.setZoom (e.zoom * (6 / 5))

/-- Embeds CanvasEngine.zoomOut: divide by 1.2 through setZoom. -/
def Engine.zoomOut (e : Engine) : Engine :=
  e.setZoom (e.zoom / (6 / 5))

/-- A partial property record, the functional image of the plain objects that
Object.assign merges onto a shape (oldProps and newProps of
createModifyShapeAction and the properties field of a shape-update message).
Each key may be absent. -/
structure Patch where
  id : Option String := none
  x : Option Num := none
  y : Option Num := none
  rotation : Option Num := none
  fillColor : Option String := none
  strokeColor : Option String := none
  strokeWidth : Option Num := none
  opacity : Option Num := none
  cornerRadius : Option Num := none
  visible : Option Bool := none
  width : Option Num := none
  height : Option Num := none
  radius : Option Num := none
  x1 : Option Num := none
  y1 : Option Num := none
  x2 : Option Num := none
  y2 : Option Num := none
  text : Option String := none
  fontSize : Option Num := none
  fontFamily : Option String := none
  outerRadius : Option Num := none
  innerRadius : Option Num := none
  points : Option Num := none
  size : Option Num := none
deriving DecidableEq, Repr

/-- Shallow merge of a patch into the variant payload: each key the shape
object carries is overwritten when present in the patch.  A key the variant
does not carry (a radius patched onto a rectangle) would create a property no
draw, hit-test or toJSON of that variant ever reads, so it is dropped. -/
def Variant.assign (v : Variant) (p : Patch) : Variant :=
  match v with
  | .rectangle w h => .rectangle (p.width.getD w) (p.height.getD h)
  | .circle r => .circle (p.radius.getD r)
  | .line a b c d =>
      .line (p.x1.getD a) (p.y1.getD b) (p.x2.getD c) (p.y2.getD d)
  | .text t fs ff =>
      .text (p.text.getD t) (p.fontSize.getD fs) (p.fontFamily.getD ff)
  | .star o i pts =>
      .star (p.outerRadius.getD o) (p.innerRadius.getD i) (p.points.getD pts)
  | .triangle sz => .triangle (p.size.getD sz)
  | .arrow w h => .arrow (p.width.getD w) (p.height.getD h)

/-- Embeds Object.assign(shape, props): every property present in the patch
overwrites the shape field of the same name. -/
def Shape.assign (s : Shape) (p : Patch) : Shape :=
  { id := p.id.getD s.id
    x := p.x.getD s.x
    y := p.y.getD s.y
    rotation := p.rotation.getD s.rotation
    fillColor := p.fillColor.getD s.fillColor
    strokeColor := p.strokeColor.getD s.strokeColor
    strokeWidth := p.strokeWidth.getD s.strokeWidth
    opacity := p.opacity.getD s.opacity
    cornerRadius := p.cornerRadius.getD s.cornerRadius
    visible := p.visible.getD s.visible
    variant := s.variant.assign p }

/-- The reversible commands of history.js: the Action closures are embedded
as data together with their execute and revert interpretations below. -/
inductive Action where
  | addShape (shape : Shape)
  | removeShape (shape : Shape) (index : Nat)
  | modifyShape (shapeId : String) (oldProps newProps : Patch)
deriving DecidableEq, Repr

/-- Forward interpretation (the redo closure of each create...Action). -/
def Action.execute (a : Action) (e : Engine) : Engine :=
  match a with
  | .addShape s => e.addShape s
  | .removeShape s _ => e.removeShape s.id
  | .modifyShape sid _ newProps =>
      { e with shapes := updateFirstById sid (fun s => s.assign newProps) e.shapes }

/-- Inverse interpretation (the undo closure of each create...Action).  The
remove action re-inserts the shape at its captured index via splice. -/
def Action.revert (a : Action) (e : Engine) : Engine :=
  match a with
  | .addShape s => e.removeShape s.id
  | .removeShape s idx => { e with shapes := e.shapes.insertIdx idx s }
  | .modifyShape sid oldProps _ =>
      { e with shapes := updateFirstById sid (fun s => s.assign oldProps) e.shapes }

/-- The history stacks of history.js; the constructor default bounds the undo
stack at 50. -/
structure History where
  undoStack : List Action
  redoStack : List Action
  maxSize : Nat
deriving DecidableEq, Repr

/-- Embeds new History(): both stacks empty, maxSize 50. -/
def History.new : History :=
  { undoStack := [], redoStack := [], maxSize := 50 }

/-- Embeds History.push: append the action, clear the redo stack, and shift
out the oldest entry when the depth exceeds maxSize. -/
def History.push (h : History) (a : Action) : History :=
  let u := h.undoStack ++ [a]
  { h with
      undoStack := if u.length > h.maxSize then u.tail else u
      redoStack := [] }

/-- Embeds History.undo: pop the undo stack onto the redo stack, returning
the popped action (null when empty). -/
def History.undoStep (h : History) : Option Action × History :=
  match h.undoStack.getLast? with
  | Option.none => (Option.none, h)
  | some a =>
      (some a,
       { h with undoStack := h.undoStack.dropLast, redoStack := h.redoStack ++ [a] })

/-- Embeds History.redo: pop the redo stack back onto the undo stack,
returning the popped action (null when empty). -/
def History.redoStep (h : History) : Option Action × History :=
  match h.redoStack.getLast? with
  | Option.none => (Option.none, h)
  | some a =>
      (some a,
       { h with redoStack := h.redoStack.dropLast, undoStack := h.undoStack ++ [a] })

/-- One call against the history object, for reasoning about arbitrary
push/undo/redo sequences. -/
inductive HistOp where
  | push (a : Action)
  | stepUndo
  | stepRedo

/-- Applies one history call. -/
def History.applyOp (h : History) : HistOp → History
  | .push a => h.push a
  | .stepUndo => h.undoStep.2
  | .stepRedo => h.redoStep.2

/-- Applies a sequence of history calls in order. -/
def History.applyOps (h : History) (ops : List HistOp) : History :=
  ops.foldl History.applyOp h

/-- The payload of a sync wire message: the full shape-list snapshot plus the
camera. -/
structure SyncData where
  shapes : List ShapeRecord
  zoom : Num
  pan : Num × Num
deriving DecidableEq, Repr

/-- Embeds the sync message built in Collaboration.handleConnection when a
channel opens: the local shape list serialized to portable records together
with the local camera. -/
def Collaboration.syncMessage (e : Engine) : SyncData :=
  { shapes := e.shapes.map Shape.toJSON, zoom := e.zoom, pan := e.pan }

/-- Rebuilds every record through the shape factory, consuming one fresh id
per record; none models the map throwing on a record the factory cannot
rebuild. -/
def rebuildAll : List (ShapeRecord × String) → Option (List Shape)
  | [] => some []
  | p :: rest => do
      let s ← Shape.fromJSON p.2 p.1
      let t ← rebuildAll rest
      return s :: t

/-- Embeds Collaboration.handleSync (collaboration.js lines 158-174).  A peer
that already has shapes ignores the snapshot.  An empty peer rebuilds every
record through the per-class fromJSON, each reconstruction consuming one
freshly generated id; a record the factory cannot rebuild makes the map throw
before the shape list is assigned, leaving the engine unchanged.  The zoom is
adopted only when truthy and the pan object unconditionally. -/
def Collaboration.handleSync (e : Engine) (data : SyncData) (freshIds : List String) :
    Engine :=
  if e.shapes.length > 0 then e
  else
    match rebuildAll (data.shapes.zip freshIds) with
    | Option.none => e
    | some rebuilt =>
        { e with
            shapes := rebuilt
            zoom := if data.zoom = 0 then e.zoom else data.zoom
            pan := data.pan }

/-- Embeds Collaboration.handleShapeUpdate (collaboration.js lines 182-188):
find the local shape with the given identity; when it exists, shallow-merge
the patch onto it; otherwise drop the message. -/
def Collaboration.handleShapeUpdate (e : Engine) (shapeId : String) (properties : Patch) :
    Engine :=
  if e.shapes.any (fun s => s.id = shapeId) then
    { e with shapes := updateFirstById shapeId (fun s => s.assign properties) e.shapes }
  else e

/-- A project document offered to importFromJSON, after the JSON.parse stage:
either the string failed to parse, or it parsed to an object whose three
top-level keys may each be absent. -/
inductive ImportDoc where
  | malformed
  | doc (shapes : Option (List ShapeRecord)) (zoom : Option Num)
      (pan : Option (Num × Num))

/-- Embeds CanvasEngine.importFromJSON (canvas-engine.js lines 452-473).  The
try block parses, then clears this.shapes, then iterates data.shapes pushing
every record the factory can rebuild.  A parse failure is caught before any
mutation; a parsed document without a shapes array throws on
data.shapes.forEach only after the shape list has already been cleared, and
the catch returns false.  The zoom is adopted only when truthy and the pan
only when present. -/
def Engine.importFromJSON (e : Engine) (input : ImportDoc) (freshIds : List String) :
    Bool × Engine :=
  match input with
  | .malformed => (false, e)
  | .doc shapes? zoom? pan? =>
    match shapes? with
    | Option.none => (false, { e with shapes := [] })
    | some recs =>
        let rebuilt := (recs.zip freshIds).filterMap fun p => Shape.fromJSON p.2 p.1
        let e1 := { e with shapes := rebuilt }
        let e2 := match zoom? with
          | some z => if z = 0 then e1 else { e1 with zoom := z }
          | Option.none => e1
        let e3 := match pan? with
          | some pv => { e2 with pan := pv }
          | Option.none => e2
        (true, e3)

/-- The Group fields that participate in grouping geometry (group.js): the
world position of the group center, its extent, and the children held in
group-local coordinates.  The inherited style fields play no part in the
coordinate conversion and are omitted. -/
structure Group where
  x : Num
  y : Num
  width : Num
  height : Num
  children : List Shape
deriving Repr

/-- Embeds the static Group.calculateBounds: the union of the member bounds,
or a default 100 by 100 box at the origin for an empty list.  Folding min and
max from the first bound equals the source fold from infinity. -/
def Group.calculateBounds (amb : Ambient) (shapes : List Shape) : Bounds :=
  match shapes.map (Shape.getBounds amb) with
  | [] => ⟨0, 0, 100, 100⟩
  | b :: bs =>
      let minX := bs.foldl (fun m c => min m c.x) b.x
      let minY := bs.foldl (fun m c => min m c.y) b.y
      let maxX := bs.foldl (fun m c => max m (c.x + c.width)) (b.x + b.width)
      let maxY := bs.foldl (fun m c => max m (c.y + c.height)) (b.y + b.height)
      ⟨minX, minY, maxX - minX, maxY - minY⟩

/-- Embeds the Group constructor: the center is placed at the middle of the
calculated bounds and every shape is adopted through addChild, which rebases
its position into group-local coordinates (group.js lines 44-50).  The parent
back-pointer is not part of the portable state and is omitted. -/
def Group.ofShapes (amb : Ambient) (shapes : List Shape) : Group :=
  let b := Group.calculateBounds amb shapes
  let cx := b.x + b.width / 2
  let cy := b.y + b.height / 2
  { x := cx, y := cy, width := b.width, height := b.height
    children := shapes.map fun s => { s with x := s.x - cx, y := s.y - cy } }

/-- Embeds Group.ungroup (group.js lines 129-140): every child is rebased
back into world coordinates using the group position. -/
def Group.ungroup (g : Group) : List Shape :=
  g.children.map fun c => { c with x := c.x + g.x, y := c.y + g.y }

/-- The gesture-start data captured when a rotation begins (app.js lines
1314-1320). -/
structure RotationStart where
  angle : Num
  initialRotation : Num
deriving DecidableEq, Repr

/-- The gesture-start data captured when a resize begins (app.js lines
1324-1333): the pointer position, the shape position, width-or-size,
height, and radius-or-outerRadius.  A slot that would be undefined for the
selected variant is never read by the resize function dispatched for it. -/
structure ResizeStart where
  x : Num
  y : Num
  shapeX : Num
  shapeY : Num
  shapeWidth : Num
  shapeHeight : Num
  shapeRadius : Num
deriving DecidableEq, Repr

/-- The fields of a pointer event the embedded handlers read. -/
structure MouseEv where
  clientX : Num
  clientY : Num
  shiftKey : Bool
  altKey : Bool
deriving DecidableEq, Repr

/-- The DesignApp state the embedded handlers touch: the engine, the command
history, the active tool and style settings, and the per-gesture flags. -/
structure AppState where
  engine : Engine
  history : History
  currentTool : String
  fillColor : String
  strokeColor : String
  strokeWidthSetting : Num
  isPanning : Bool
  panStart : Option (Num × Num)
  isRotating : Bool
  rotationStart : Option RotationStart
  isResizing : Bool
  resizeHandle : Option String
  resizeStart : Option ResizeStart
  isSelecting : Bool
  selectionStart : Option (Num × Num)
  selectionBox : Option (Num × Num × Num × Num)
  isDragging : Bool
  dragStart : Option (Num × Num)
  draggedShape : Option String
  dragInitialPos : Option (Num × Num)
  isDrawing : Bool
  drawStart : Option (Num × Num)
  tempShape : Option String
deriving DecidableEq, Repr

/-- Width slot of the variants resizeRectangle writes (rectangle and arrow). -/
def Shape.getWidth (s : Shape) : Num :=
  match s.variant with
  | .rectangle w _ => w
  | .arrow w _ => w
  | _ => 0

/-- Height slot of the variants resizeRectangle writes. -/
def Shape.getHeight (s : Shape) : Num :=
  match s.variant with
  | .rectangle _ h => h
  | .arrow _ h => h
  | _ => 0

/-- Writes the width slot of a rectangle or arrow. -/
def Shape.setWidth (s : Shape) (w : Num) : Shape :=
  match s.variant with
  | .rectangle _ h => { s with variant := .rectangle w h }
  | .arrow _ h => { s with variant := .arrow w h }
  | _ => s

/-- Writes the height slot of a rectangle or arrow. -/
def Shape.setHeight (s : Shape) (h : Num) : Shape :=
  match s.variant with
  | .rectangle w _ => { s with variant := .rectangle w h }
  | .arrow w _ => { s with variant := .arrow w h }
  | _ => s

/-- Embeds DesignApp.resizeRectangle (app.js lines 2016-2106), the
handle-specific box resize used for rectangles and arrows.  Every new extent
is floored at 10 and the shape center moves by half the extent change, signed
by the handle direction. -/
def resizeRectangle (sqrt : Num → Num) (start : ResizeStart) (handleType : String)
    (dx dy : Num) (maintainRatio : Bool) (shape : Shape) : Shape :=
  let ratio := start.shapeWidth / start.shapeHeight
  match handleType with
  | "se" =>
      let wh :=
        if maintainRatio then
          let distance := sqrt (dx * dx + dy * dy)
          let sign : Num := if dx + dy ≥ 0 then 1 else -1
          let nw := max 10 (start.shapeWidth + sign * distance)
          (nw, nw / ratio)
        else (max 10 (start.shapeWidth + dx), max 10 (start.shapeHeight + dy))
      let s := (shape.setWidth wh.1).setHeight wh.2
      { s with
          x := start.shapeX + (wh.1 - start.shapeWidth) / 2
          y := start.shapeY + (wh.2 - start.shapeHeight) / 2 }
  | "nw" =>
      let wh :=
        if maintainRatio then
          let distance := sqrt (dx * dx + dy * dy)
          let sign : Num := if dx + dy ≥ 0 then -1 else 1
          let nw := max 10 (start.shapeWidth + sign * distance)
          (nw, nw / ratio)
        else (max 10 (start.shapeWidth - dx), max 10 (start.shapeHeight - dy))
      let s := (shape.setWidth wh.1).setHeight wh.2
      { s with
          x := start.shapeX - (wh.1 - start.shapeWidth) / 2
          y := start.shapeY - (wh.2 - start.shapeHeight) / 2 }
  | "ne" =>
      let wh :=
        if maintainRatio then
          let nw := max 10 (start.shapeWidth + dx)
          (nw, nw / ratio)
        else (max 10 (start.shapeWidth + dx), max 10 (start.shapeHeight - dy))
      let s := (shape.setWidth wh.1).setHeight wh.2
      { s with
          x := start.shapeX + (wh.1 - start.shapeWidth) / 2
          y := start.shapeY - (wh.2 - start.shapeHeight) / 2 }
  | "sw" =>
      let wh :=
        if maintainRatio then
          let nw := max 10 (start.shapeWidth - dx)
          (nw, nw / ratio)
        else (max 10 (start.shapeWidth - dx), max 10 (start.shapeHeight + dy))
      let s := (shape.setWidth wh.1).setHeight wh.2
      { s with
          x := start.shapeX - (wh.1 - start.shapeWidth) / 2
          y := start.shapeY + (wh.2 - start.shapeHeight) / 2 }
  | "e" =>
      let s := shape.setWidth (max 10 (start.shapeWidth + dx))
      let s := if maintainRatio then s.setHeight (s.getWidth / ratio) else s
      { s with
          x := start.shapeX + (s.getWidth - start.shapeWidth) / 2
          y := start.shapeY + (s.getHeight - start.shapeHeight) / 2 }
  | "w" =>
      let s := shape.setWidth (max 10 (start.shapeWidth - dx))
      let s := if maintainRatio then s.setHeight (s.getWidth / ratio) else s
      { s with
          x := start.shapeX - (s.getWidth - start.shapeWidth) / 2
          y := start.shapeY - (s.getHeight - start.shapeHeight) / 2 }
  | "n" =>
      let s := shape.setHeight (max 10 (start.shapeHeight - dy))
      let s := if maintainRatio then s.setWidth (s.getHeight * ratio) else s
      { s with
          x := start.shapeX + (s.getWidth - start.shapeWidth) / 2
          y := start.shapeY - (s.getHeight - start.shapeHeight) / 2 }
  | "s" =>
      let s := shape.setHeight (max 10 (start.shapeHeight + dy))
      let s := if maintainRatio then s.setWidth (s.getHeight * ratio) else s
      { s with
          x := start.shapeX + (s.getWidth - start.shapeWidth) / 2
          y := start.shapeY + (s.getHeight - start.shapeHeight) / 2 }
  | _ => shape

/-- Whether the pointer direction grows the shape, shared by the circular
resize functions. -/
def resizeIncreasing (handleType : String) (dx dy : Num) : Bool :=
  (handleType.contains 'e' && decide (dx > 0)) ||
  (handleType.contains 'w' && decide (dx < 0)) ||
  (handleType.contains 's' && decide (dy > 0)) ||
  (handleType.contains 'n' && decide (dy < 0))

/-- Embeds DesignApp.resizeCircle: radial distance signed by the handle
direction, floored at 5. -/
def resizeCircle (sqrt : Num → Num) (start : ResizeStart) (handleType : String)
    (dx dy : Num) (shape : Shape) : Shape :=
  let distance := sqrt (dx * dx + dy * dy)
  let delta := if resizeIncreasing handleType dx dy then distance else -distance
  match shape.variant with
  | .circle _ => { shape with variant := .circle (max 5 (start.shapeRadius + delta)) }
  | _ => shape

/-- Embeds DesignApp.resizeStar: the outer radius moves by the signed radial
distance, floored at 10, and the inner radius is recomputed as 0.4 of it. -/
def resizeStar (sqrt : Num → Num) (start : ResizeStart) (handleType : String)
    (dx dy : Num) (shape : Shape) : Shape :=
  let distance := sqrt (dx * dx + dy * dy)
  let delta := if resizeIncreasing handleType dx dy then distance else -distance
  match shape.variant with
  | .star _ _ pts =>
      let outer := max 10 (start.shapeRadius + delta)
      { shape with variant := .star outer (outer * (2 / 5)) pts }
  | _ => shape

/-- Embeds DesignApp.resizeTriangle: the size moves by the signed radial
distance from shapeWidth falling back to shapeRadius, floored at 10. -/
def resizeTriangle (sqrt : Num → Num) (start : ResizeStart) (handleType : String)
    (dx dy : Num) (shape : Shape) : Shape :=
  let distance := sqrt (dx * dx + dy * dy)
  let delta := if resizeIncreasing handleType dx dy then distance else -distance
  match shape.variant with
  | .triangle _ =>
      { shape with variant :=
          .triangle (max 10 (jsOrNum (some start.shapeWidth) start.shapeRadius + delta)) }
  | _ => shape

/-- Rotation branch of handleMouseMove (app.js lines 1484-1495): the shape
rotation becomes the initial rotation plus the pointer angle delta relative
to the shape center.  A null or array selection makes the property reads
throw or write onto the array object, mutating no scene shape. -/
def moveRotate (amb : Ambient) (st : AppState) (pos : Num × Num) : AppState :=
  match st.rotationStart, st.engine.selectedShape with
  | some rs, .single sid =>
      match findById sid st.engine.shapes with
      | some sel =>
          let angle := amb.atan2 (pos.2 - sel.y) (pos.1 - sel.x)
          let deltaAngle := angle - rs.angle
          let newRot := rs.initialRotation + deltaAngle * 180 / amb.pi
          { st with engine := { st.engine with
              shapes := updateFirstById sid (fun s => { s with rotation := newRot })
                st.engine.shapes } }
      | Option.none => st
  | _, _ => st

/-- Resize branch of handleMouseMove (app.js lines 1497-1516): dispatch the
variant-specific resize function on the selected shape. -/
def moveResize (amb : Ambient) (st : AppState) (ev : MouseEv) (pos : Num × Num) :
    AppState :=
  match st.resizeHandle, st.resizeStart, st.engine.selectedShape with
  | some ht, some start, .single sid =>
      let dx := pos.1 - start.x
      let dy := pos.2 - start.y
      let maintainRatio := ev.shiftKey
      let f : Shape → Shape := fun sh =>
        if sh.variant.typeName = "rectangle" ∨ sh.variant.typeName = "arrow" then
          resizeRectangle amb.sqrt start ht dx dy maintainRatio sh
        else if sh.variant.typeName = "circle" then
          resizeCircle amb.sqrt start ht dx dy sh
        else if sh.variant.typeName = "star" then
          resizeStar amb.sqrt start ht dx dy sh
        else if sh.variant.typeName = "triangle" then
          resizeTriangle amb.sqrt start ht dx dy sh
        else sh
      { st with engine := { st.engine with
          shapes := updateFirstById sid f st.engine.shapes } }
  | _, _, _ => st

/-- Panning branch of handleMouseMove: the camera offset moves by the screen
delta scaled by the zoom and the pan anchor is re-captured. -/
def movePan (st : AppState) (ev : MouseEv) : AppState :=
  match st.panStart with
  | some ps =>
      let dx := (ev.clientX - ps.1) / st.engine.zoom
      let dy := (ev.clientY - ps.2) / st.engine.zoom
      { st with
          engine := { st.engine with
            pan := (st.engine.pan.1 + dx, st.engine.pan.2 + dy) }
          panStart := some (ev.clientX, ev.clientY) }
  | Option.none => st

/-- Dragging branch of handleMouseMove: the dragged shape follows the pointer
delta from the captured anchor. -/
def moveDrag (st : AppState) (pos : Num × Num) : AppState :=
  match st.draggedShape, st.dragStart, st.dragInitialPos with
  | some did, some ds, some ip =>
      let dx := pos.1 - ds.1
      let dy := pos.2 - ds.2
      { st with engine := { st.engine with
          shapes := updateFirstById did
            (fun s => { s with x := ip.1 + dx, y := ip.2 + dy }) st.engine.shapes } }
  | _, _, _ => st

/-- Drawing branch of handleMouseMove (app.js lines 1549-1650): the temp
shape being sized follows the pointer, per tool.  The diagram-shape tools
(diamond, hexagon, parallelogram, cylinder, cloud) size classes outside the
embedded shape model in the same per-frame fashion and are not modelled. -/
def moveDraw (amb : Ambient) (st : AppState) (ev : MouseEv) (pos : Num × Num) :
    AppState :=
  match st.tempShape, st.drawStart with
  | some tid, some ds =>
      let upd (f : Shape → Shape) : AppState :=
        { st with engine := { st.engine with
            shapes := updateFirstById tid f st.engine.shapes } }
      if st.currentTool = "rectangle" then
        let width0 := pos.1 - ds.1
        let height0 := pos.2 - ds.2
        let wh :=
          if ev.shiftKey then
            let size := max |width0| |height0|
            (if width0 < 0 then -size else size, if height0 < 0 then -size else size)
          else (width0, height0)
        upd fun t =>
          match t.variant with
          | .rectangle _ _ =>
              if ev.altKey then
                { t with x := ds.1, y := ds.2,
                         variant := .rectangle (|wh.1| * 2) (|wh.2| * 2) }
              else
                { t with x := ds.1 + wh.1 / 2, y := ds.2 + wh.2 / 2,
                         variant := .rectangle |wh.1| |wh.2| }
          | _ => t
      else if st.currentTool = "circle" then
        let radius0 := amb.sqrt ((pos.1 - ds.1) ^ 2 + (pos.2 - ds.2) ^ 2)
        let radius := if ev.altKey then radius0 * 2 else radius0
        upd fun t =>
          match t.variant with
          | .circle _ => { t with variant := .circle radius }
          | _ => t
      else if st.currentTool = "line" then
        upd fun t =>
          match t.variant with
          | .line a b _ _ =>
              { t with x := (a + pos.1) / 2, y := (b + pos.2) / 2,
                       variant := .line a b pos.1 pos.2 }
          | _ => t
      else if st.currentTool = "triangle" then
        let triSize := amb.sqrt ((pos.1 - ds.1) ^ 2 + (pos.2 - ds.2) ^ 2) * 2
        upd fun t =>
          match t.variant with
          | .triangle _ => { t with variant := .triangle triSize }
          | _ => t
      else if st.currentTool = "star" then
        let starRadius := amb.sqrt ((pos.1 - ds.1) ^ 2 + (pos.2 - ds.2) ^ 2)
        upd fun t =>
          match t.variant with
          | .star _ _ pts =>
              { t with variant := .star starRadius (starRadius * (2 / 5)) pts }
          | _ => t
      else if st.currentTool = "arrow" then
        let arrowWidth := pos.1 - ds.1
        let arrowHeight := pos.2 - ds.2
        upd fun t =>
          match t.variant with
          | .arrow _ _ =>
              if ev.altKey then
                { t with x := ds.1, y := ds.2,
                         variant := .arrow (|arrowWidth| * 2) (|arrowHeight| * 2) }
              else
                { t with x := ds.1 + arrowWidth / 2, y := ds.2 + arrowHeight / 2,
                         variant := .arrow |arrowWidth| |arrowHeight| }
          | _ => t
      else st
  | _, _ => st

/-- Embeds DesignApp.handleMouseMove (app.js lines 1467-1651): the guarded
branch cascade, each taken branch returning.  The cursor broadcast and the
cursor styling touch only the network and the DOM. -/
def DesignApp.handleMouseMove (amb : Ambient) (st : AppState) (ev : MouseEv) :
    AppState :=
  let x := ev.clientX - st.engine.canvasLeft
  let y := ev.clientY - st.engine.canvasTop
  let pos := st.engine.screenToCanvas x y
  if st.isRotating ∧ st.rotationStart.isSome then
    moveRotate amb st pos
  else if st.isResizing ∧ st.resizeHandle.isSome ∧ st.resizeStart.isSome then
    moveResize amb st ev pos
  else if st.isPanning ∧ st.panStart.isSome then
    movePan st ev
  else if st.isDragging ∧ st.draggedShape.isSome ∧ st.dragStart.isSome then
    moveDrag st pos
  else if st.isSelecting ∧ st.selectionStart.isSome then
    { st with selectionBox :=
        match st.selectionStart with
        | some ss => some (ss.1, ss.2, pos.1, pos.2)
        | Option.none => st.selectionBox }
  else if st.isDrawing ∧ st.tempShape.isSome ∧ st.drawStart.isSome then
    moveDraw amb st ev pos
  else st

/-- Marquee-release branch of handleMouseUp (app.js lines 1706-1732). -/
def upMarquee (amb : Ambient) (st : AppState) (ev : MouseEv) : AppState :=
  match st.selectionStart with
  | some ss =>
      let x := ev.clientX - st.engine.canvasLeft
      let y := ev.clientY - st.engine.canvasTop
      let pos := st.engine.screenToCanvas x y
      let selected := st.engine.getShapesInRect amb ss.1 ss.2 pos.1 pos.2
      let e1 := if selected.length > 0 then st.engine.selectMultiple selected else st.engine
      { st with engine := e1, isSelecting := false, selectionStart := Option.none,
                selectionBox := Option.none }
  | Option.none => st

/-- Drag-release branch of handleMouseUp (app.js lines 1734-1749): one
modify command covering the whole gesture, from the captured initial position
to the final position, is pushed.  A dragged shape deleted from the scene by
a remote message mid-gesture would leave a detached reference and is outside
the id-proxied embedding. -/
def upDrag (st : AppState) : AppState :=
  match st.draggedShape, st.dragInitialPos with
  | some did, some ip =>
      match findById did st.engine.shapes with
      | some ds =>
          let action := Action.modifyShape did
            { x := some ip.1, y := some ip.2 }
            { x := some ds.x, y := some ds.y }
          { st with history := st.history.push action,
                    isDragging := false, dragStart := Option.none,
                    draggedShape := Option.none }
      | Option.none => st
  | _, _ => st

/-- Draw-release branch of handleMouseUp (app.js lines 1751-1769): a temp
shape below the 5 by 5 minimum is discarded, otherwise one add command is
pushed and the shape selected. -/
def upDraw (amb : Ambient) (st : AppState) : AppState :=
  match st.tempShape with
  | some tid =>
      match findById tid st.engine.shapes with
      | some tmp =>
          let b := tmp.getBounds amb
          if b.width < 5 ∧ b.height < 5 ∧ st.currentTool ≠ "text" then
            { st with engine := st.engine.removeShape tid,
                      isDrawing := false, drawStart := Option.none,
                      tempShape := Option.none }
          else
            { st with
                history := st.history.push (.addShape tmp)
                engine := { st.engine with selectedShape := .single tid }
                isDrawing := false, drawStart := Option.none,
                tempShape := Option.none }
      | Option.none => st
  | Option.none => st

/-- Text-tool tail of handleMouseUp (app.js lines 1771-1794): a fresh text
shape is added at the pointer and one add command pushed. -/
def upText (st : AppState) (ev : MouseEv) (freshTextId : String) : AppState :=
  let x := ev.clientX - st.engine.canvasLeft
  let y := ev.clientY - st.engine.canvasTop
  let pos := st.engine.screenToCanvas x y
  let textShape := mkText freshTextId pos.1 pos.2 (some "Double click to edit")
    { fillColor := some st.fillColor, strokeColor := some st.strokeColor
      strokeWidth := some st.strokeWidthSetting
      fontSize := some 32, fontFamily := some "Arial" }
  { st with
      engine := { st.engine.addShape textShape with selectedShape := .single freshTextId }
      history := st.history.push (.addShape textShape) }

/-- Embeds DesignApp.handleMouseUp (app.js lines 1679-1795): the gesture
commit point.  The panning, rotating, resizing and marquee branches reset
their flags and return without touching the history; the dragging and
drawing branches push one command each; the drawing branch falls through
into the text-tool tail. -/
def DesignApp.handleMouseUp (amb : Ambient) (freshTextId : String) (st : AppState)
    (ev : MouseEv) : AppState :=
  if st.isPanning then
    { st with isPanning := false, panStart := Option.none }
  else if st.isRotating then
    { st with isRotating := false, rotationStart := Option.none }
  else if st.isResizing then
    { st with isResizing := false, resizeHandle := Option.none,
              resizeStart := Option.none }
  else if st.isSelecting ∧ st.selectionStart.isSome then
    upMarquee amb st ev
  else if st.isDragging ∧ st.draggedShape.isSome then
    upDrag st
  else
    let st1 := if st.isDrawing ∧ st.tempShape.isSome then upDraw amb st else st
    if st1.currentTool = "text" then upText st1 ev freshTextId else st1

/-- Embeds DesignApp.undo (app.js lines 1948-1956): pop the history and run
the inverse closure of the popped action. -/
def DesignApp.undo (st : AppState) : AppState :=
  let r := st.history.undoStep
  match r.1 with
  | some a => { st with history := r.2, engine := a.revert st.engine }
  | Option.none => { st with history := r.2 }

/-- Embeds DesignApp.redo (app.js lines 1958-1966): pop the redo stack and
run the forward closure of the popped action. -/
def DesignApp.redo (st : AppState) : AppState :=
  let r := st.history.redoStep
  match r.1 with
  | some a => { st with history := r.2, engine := a.execute st.engine }
  | Option.none => { st with history := r.2 }

/-- The depth invariant of the two stacks together. -/
def History.depthInv (h : History) : Prop :=
  h.undoStack.length + h.redoStack.length ≤ h.maxSize

/-- The variant payload is consistent with the enclosing object the way every
constructor-built, unmutated-in-the-relevant-fields shape is: a line sits at
the midpoint of its endpoints, a text has a non-falsy content, font size and
family, and a star keeps the constructor relation between its radii and a
non-falsy point count. -/
def Variant.consistentWith (v : Variant) (x y : Num) : Prop :=
  match v with
  | .line x1 b x2 d => x = (x1 + x2) / 2 ∧ y = (b + d) / 2
  | .text t fs ff => t ≠ "" ∧ fs ≠ 0 ∧ ff ≠ ""
  | .star o i pts => i = o * (2 / 5) ∧ pts ≠ 0
  | _ => True

instance (v : Variant) (x y : Num) : Decidable (v.consistentWith x y) :=
  match v with
  | .rectangle _ _ => isTrue trivial
  | .circle _ => isTrue trivial
  | .line _ _ _ _ => inferInstanceAs (Decidable (_ ∧ _))
  | .text _ _ _ => inferInstanceAs (Decidable (_ ∧ _ ∧ _))
  | .star _ _ _ => inferInstanceAs (Decidable (_ ∧ _))
  | .triangle _ => isTrue trivial
  | .arrow _ _ => isTrue trivial

/-- A shape whose style fields are non-falsy and whose variant payload is
consistent with its position, so that reconstruction through the constructor
defaults is the identity on every field but the id. -/
def ShapeWF (s : Shape) : Prop :=
  s.strokeWidth ≠ 0 ∧ s.fillColor ≠ "" ∧ s.strokeColor ≠ "" ∧
    s.variant.consistentWith s.x s.y

instance (s : Shape) : Decidable (ShapeWF s) :=
  inferInstanceAs (Decidable (_ ∧ _ ∧ _ ∧ _))

/-- A concrete rectangle record carrying id a. -/
def recA : ShapeRecord :=
  { id := "a", type := "rectangle", x := 0, y := 0, rotation := 0,
    fillColor := "#0d99ff", strokeColor := "#333333", strokeWidth := 1,
    opacity := 1, cornerRadius := 0, visible := true,
    width := some 100, height := some 100 }

/-- A concrete well-formed rectangle shape. -/
def shapeW : Shape :=
  { id := "a", x := 1, y := 2, rotation := 45, fillColor := "#ff0000",
    strokeColor := "#00ff00", strokeWidth := 2, opacity := 1 / 2, cornerRadius := 3,
    visible := true, variant := .rectangle 10 20 }

/-- A concrete rectangle shape with id a. -/
def shapeA : Shape :=
  { id := "a", x := 0, y := 0, rotation := 0, fillColor := "#0d99ff",
    strokeColor := "#333333", strokeWidth := 1, opacity := 1, cornerRadius := 0,
    visible := true, variant := .rectangle 100 100 }

/-- A concrete sender engine holding one rectangle with id a. -/
def senderE : Engine :=
  { shapes := [shapeA], selectedShape := .none, zoom := 1, pan := (0, 0),
    canvasWidth := 800, canvasHeight := 600, canvasLeft := 0, canvasTop := 0 }

/-- A concrete receiver engine with an empty scene. -/
def receiverE : Engine :=
  { shapes := [], selectedShape := .none, zoom := 1, pan := (0, 0),
    canvasWidth := 800, canvasHeight := 600, canvasLeft := 0, canvasTop := 0 }

/-- A concrete rectangle shape with id s1, used by the C8 witness. -/
def shapeS1 : Shape :=
  { id := "s1", x := 0, y := 0, rotation := 0, fillColor := "#0d99ff",
    strokeColor := "#333333", strokeWidth := 1, opacity := 1, cornerRadius := 0,
    visible := true, variant := .rectangle 100 100 }

/-- A concrete engine holding one rectangle with id s1, used by the C8
witness. -/
def engineC8 : Engine :=
  { shapes := [shapeS1], selectedShape := .none, zoom := 1, pan := (0, 0),
    canvasWidth := 800, canvasHeight := 600, canvasLeft := 0, canvasTop := 0 }

/-- A concrete fillColor patch, used by the C8 witness. -/
def patchC8 : Patch := { fillColor := some "#ff0000" }

/-- A concrete engine with one shape and a non-default camera, used to
exhibit the import bug. -/
def shapeK1 : Shape :=
  { id := "k1", x := 5, y := 6, rotation := 0, fillColor := "#0d99ff",
    strokeColor := "#333333", strokeWidth := 1, opacity := 1, cornerRadius := 0,
    visible := true, variant := .circle 7 }

/-- A concrete engine with one shape and a non-default camera, holding the
circle above. -/
def engineC6 : Engine :=
  { shapes := [shapeK1], selectedShape := .none, zoom := 2, pan := (3, 4),
    canvasWidth := 800, canvasHeight := 600, canvasLeft := 0, canvasTop := 0 }

/-- Every key present in p is also present in q, so that assigning p and
then q equals assigning q alone. -/
def Patch.domSubset (p q : Patch) : Prop :=
  (p.id.isSome → q.id.isSome) ∧ (p.x.isSome → q.x.isSome) ∧
  (p.y.isSome → q.y.isSome) ∧ (p.rotation.isSome → q.rotation.isSome) ∧
  (p.fillColor.isSome → q.fillColor.isSome) ∧
  (p.strokeColor.isSome → q.strokeColor.isSome) ∧
  (p.strokeWidth.isSome → q.strokeWidth.isSome) ∧
  (p.opacity.isSome → q.opacity.isSome) ∧
  (p.cornerRadius.isSome → q.cornerRadius.isSome) ∧
  (p.visible.isSome → q.visible.isSome) ∧
  (p.width.isSome → q.width.isSome) ∧ (p.height.isSome → q.height.isSome) ∧
  (p.radius.isSome → q.radius.isSome) ∧ (p.x1.isSome → q.x1.isSome) ∧
  (p.y1.isSome → q.y1.isSome) ∧ (p.x2.isSome → q.x2.isSome) ∧
  (p.y2.isSome → q.y2.isSome) ∧ (p.text.isSome → q.text.isSome) ∧
  (p.fontSize.isSome → q.fontSize.isSome) ∧
  (p.fontFamily.isSome → q.fontFamily.isSome) ∧
  (p.outerRadius.isSome → q.outerRadius.isSome) ∧
  (p.innerRadius.isSome → q.innerRadius.isSome) ∧
  (p.points.isSome → q.points.isSome) ∧ (p.size.isSome → q.size.isSome)

instance (p q : Patch) : Decidable (Patch.domSubset p q) :=
  inferInstanceAs (Decidable (_ ∧ _))

/-- The command has been applied and its effect is still in force in the
engine: the added shape sits at the end of the list with no earlier shape
sharing its id; the removed shape is absent and its captured index in range;
the modify command's new property set covers its old one, patches no id, and
is already reflected in the scene. -/
def Action.appliedIn : Action → Engine → Prop
  | .addShape s, e => ∃ pre, e.shapes = pre ++ [s] ∧ ∀ t ∈ pre, t.id ≠ s.id
  | .removeShape s idx, e => (∀ t ∈ e.shapes, t.id ≠ s.id) ∧ idx ≤ e.shapes.length
  | .modifyShape sid oldProps newProps, _e =>
      Patch.domSubset oldProps newProps ∧ oldProps.id = Option.none ∧
      newProps.id = Option.none ∧
      updateFirstById sid (fun t => t.assign newProps) _e.shapes = _e.shapes

/-- A modify command whose effect is a fixed point of the concrete C8 engine,
used by the C4 witness. -/
def actC4 : Action := .modifyShape "s1" { x := some 0 } { x := some 0 }

/-- A concrete app state whose history holds the modify command above, used
by the C4 witness. -/
def stC4 : AppState :=
  { engine := engineC8,
    history := { undoStack := [actC4], redoStack := [], maxSize := 50 },
    currentTool := "select", fillColor := "#0d99ff", strokeColor := "#333333",
    strokeWidthSetting := 1,
    isPanning := false, panStart := Option.none,
    isRotating := false, rotationStart := Option.none,
    isResizing := false, resizeHandle := Option.none, resizeStart := Option.none,
    isSelecting := false, selectionStart := Option.none, selectionBox := Option.none,
    isDragging := false, dragStart := Option.none, draggedShape := Option.none,
    dragInitialPos := Option.none,
    isDrawing := false, drawStart := Option.none, tempShape := Option.none }

/-- A concrete ambient with placeholder irrational primitives; the paths the
concrete scenarios exercise never consult them. -/
def ambZ : Ambient :=
  { sqrt := fun _ => 0, atan2 := fun _ _ => 0, pi := 1, measure := fun _ _ _ => 0 }

/-- A concrete pointer-up event. -/
def evZ : MouseEv := { clientX := 0, clientY := 0, shiftKey := false, altKey := false }

/-- The gesture-start capture of a southeast resize of a 100 by 100
rectangle centered at the origin, anchored at canvas position 50 50. -/
def rsSE : ResizeStart :=
  { x := 50, y := 50, shapeX := 0, shapeY := 0, shapeWidth := 100,
    shapeHeight := 100, shapeRadius := 0 }

/-- A concrete app state in the middle of a southeast resize gesture on the
rectangle with id a, with an empty history. -/
def stC2 : AppState :=
  { engine := { senderE with selectedShape := .single "a" },
    history := History.new,
    currentTool := "select", fillColor := "#0d99ff", strokeColor := "#333333",
    strokeWidthSetting := 1,
    isPanning := false, panStart := Option.none,
    isRotating := false, rotationStart := Option.none,
    isResizing := true, resizeHandle := some "se", resizeStart := some rsSE,
    isSelecting := false, selectionStart := Option.none, selectionBox := Option.none,
    isDragging := false, dragStart := Option.none, draggedShape := Option.none,
    dragInitialPos := Option.none,
    isDrawing := false, drawStart := Option.none, tempShape := Option.none }

/-- A concrete rotating state. -/
def stC2rot : AppState :=
  { stC2 with
      isResizing := false
      resizeHandle := Option.none
      resizeStart := Option.none
      isRotating := true
      rotationStart := some { angle := 0, initialRotation := 0 } }

/-- A concrete dragging state over the rectangle with id a. -/
def stC2drag : AppState :=
  { stC2 with
      isResizing := false
      resizeHandle := Option.none
      resizeStart := Option.none
      isDragging := true
      draggedShape := some "a"
      dragStart := some (0, 0)
      dragInitialPos := some (0, 0) }

/-- The 100 by 100 rectangle at the origin of the C5 scenario. -/
def rectC5 : Shape :=
  { id := "r1", x := 0, y := 0, rotation := 0, fillColor := "#0d99ff",
    strokeColor := "#333333", strokeWidth := 1, opacity := 1, cornerRadius := 0,
    visible := true, variant := .rectangle 100 100 }

/-- The engine of the C5 scenario: the rectangle present and selected, unit
zoom, centered camera, degenerate canvas size so that screen and canvas
coordinates coincide. -/
def engineC5 : Engine :=
  { shapes := [rectC5], selectedShape := .single "r1", zoom := 1, pan := (0, 0),
    canvasWidth := 0, canvasHeight := 0, canvasLeft := 0, canvasTop := 0 }

/-- The app state of the C5 scenario: the rectangle has been added (one add
command in the history) and a southeast resize gesture is in progress,
anchored at canvas position 50 50. -/
def stC5 : AppState :=
  { engine := engineC5,
    history := History.new.push (.addShape rectC5),
    currentTool := "select", fillColor := "#0d99ff", strokeColor := "#333333",
    strokeWidthSetting := 1,
    isPanning := false, panStart := Option.none,
    isRotating := false, rotationStart := Option.none,
    isResizing := true, resizeHandle := some "se", resizeStart := some rsSE,
    isSelecting := false, selectionStart := Option.none, selectionBox := Option.none,
    isDragging := false, dragStart := Option.none, draggedShape := Option.none,
    dragInitialPos := Option.none,
    isDrawing := false, drawStart := Option.none, tempShape := Option.none }

/-- The pointer-move event of the C5 scenario: the pointer lands at canvas
position 70 70, a delta of plus 20 plus 20 from the gesture anchor, with no
modifier key. -/
def evC5 : MouseEv := { clientX := 70, clientY := 70, shiftKey := false, altKey := false }

/-- The state after the per-frame resize update. -/
def stC5move : AppState := DesignApp.handleMouseMove ambZ stC5 evC5

/-- The state after the gesture commits at pointer-up. -/
def stC5up : AppState := DesignApp.handleMouseUp ambZ "t" stC5move evC5

/-- The state after the subsequent undo. -/
def stC5undo : AppState := DesignApp.undo stC5up

/-- Fifty push calls in a row, filling the undo stack to its bound. -/
def opsC7 : List HistOp := List.replicate 50 (.push (.addShape shapeA))

/-! Helper lemmas about the JavaScript truthiness helpers and first-match
list operations. -/

lemma jsOrNum_some_zero (a : Num) : jsOrNum (some a) 0 = a := by
  unfold jsOrNum; split <;> simp_all

lemma jsOrNum_some_of_ne (a b : Num) (h : a ≠ 0) : jsOrNum (some a) b = a := by
  unfold jsOrNum; simp [h]

lemma jsOrStr_some_of_ne (a b : String) (h : a ≠ "") : jsOrStr (some a) b = a := by
  unfold jsOrStr; simp [h]

lemma getD_getD {α : Type} (a b : Option α) (h : a.isSome → b.isSome) (c : α) :
    b.getD (a.getD c) = b.getD c := by
  cases b with
  | some v => rfl
  | none =>
      cases a with
      | none => rfl
      | some w => simp at h

lemma toJSON_set_id (s : Shape) (i : String) :
    ({ s with id := i } : Shape).toJSON = { s.toJSON with id := i } := by
  cases s with
  | mk sid x y rot fc sc sw op cr vis v => cases v <;> rfl

lemma assign_assign (s : Shape) (p q : Patch) (h : Patch.domSubset p q) :
    (s.assign p).assign q = s.assign q := by
  obtain ⟨h1, h2, h3, h4, h5, h6, h7, h8, h9, h10, h11, h12, h13, h14, h15, h16,
    h17, h18, h19, h20, h21, h22, h23, h24⟩ := h
  cases s with
  | mk sid x y rot fc sc sw op cr vis v =>
      cases v <;>
        simp [Shape.assign, Variant.assign,
          getD_getD _ _ h1, getD_getD _ _ h2, getD_getD _ _ h3, getD_getD _ _ h4,
          getD_getD _ _ h5, getD_getD _ _ h6, getD_getD _ _ h7, getD_getD _ _ h8,
          getD_getD _ _ h9, getD_getD _ _ h10, getD_getD _ _ h11, getD_getD _ _ h12,
          getD_getD _ _ h13, getD_getD _ _ h14, getD_getD _ _ h15, getD_getD _ _ h16,
          getD_getD _ _ h17, getD_getD _ _ h18, getD_getD _ _ h19, getD_getD _ _ h20,
          getD_getD _ _ h21, getD_getD _ _ h22, getD_getD _ _ h23, getD_getD _ _ h24]

lemma assign_id_of_none (t : Shape) (p : Patch) (h : p.id = Option.none) :
    (t.assign p).id = t.id := by
  simp [Shape.assign, h]

lemma updateFirstById_of_forall_ne (sid : String) (f : Shape → Shape)
    (l : List Shape) (h : ∀ t ∈ l, t.id ≠ sid) :
    updateFirstById sid f l = l := by
  induction l with
  | nil => rfl
  | cons s rest ih =>
      have hs : s.id ≠ sid := h s (by simp)
      simp only [updateFirstById, if_neg hs]
      rw [ih fun t ht => h t (by simp [ht])]

lemma updateFirstById_append (sid : String) (f : Shape → Shape)
    (pre : List Shape) (s : Shape) (post : List Shape)
    (hpre : ∀ t ∈ pre, t.id ≠ sid) (hs : s.id = sid) :
    updateFirstById sid f (pre ++ s :: post) = pre ++ f s :: post := by
  induction pre with
  | nil => simp [updateFirstById, hs]
  | cons t rest ih =>
      have ht : t.id ≠ sid := hpre t (by simp)
      simp only [List.cons_append, updateFirstById, if_neg ht]
      exact congrArg (List.cons t) (ih fun u hu => hpre u (by simp [hu]))

lemma removeFirstById_append (sid : String) (pre : List Shape) (s : Shape)
    (post : List Shape) (hpre : ∀ t ∈ pre, t.id ≠ sid) (hs : s.id = sid) :
    removeFirstById sid (pre ++ s :: post) = pre ++ post := by
  induction pre with
  | nil => simp [removeFirstById, hs]
  | cons t rest ih =>
      have ht : t.id ≠ sid := hpre t (by simp)
      simp only [List.cons_append, removeFirstById, if_neg ht]
      exact congrArg (List.cons t) (ih fun u hu => hpre u (by simp [hu]))

lemma updateFirstById_comp (sid : String) (f g : Shape → Shape)
    (hg : ∀ s, (g s).id = s.id) (l : List Shape) :
    updateFirstById sid f (updateFirstById sid g l)
      = updateFirstById sid (fun s => f (g s)) l := by
  induction l with
  | nil => rfl
  | cons s rest ih =>
      by_cases hs : s.id = sid
      · simp [updateFirstById, hs, hg s]
      · simp [updateFirstById, hs, ih]

lemma updateFirstById_congr (sid : String) (f g : Shape → Shape)
    (h : ∀ s, f s = g s) (l : List Shape) :
    updateFirstById sid f l = updateFirstById sid g l := by
  induction l with
  | nil => rfl
  | cons s rest ih =>
      by_cases hs : s.id = sid
      · simp [updateFirstById, hs, h s]
      · simp [updateFirstById, hs, ih]

lemma removeFirstById_insertIdx (sid : String) (s : Shape) (idx : Nat)
    (l : List Shape) (h : ∀ t ∈ l, t.id ≠ sid) (hs : s.id = sid)
    (hle : idx ≤ l.length) :
    removeFirstById sid (l.insertIdx idx s) = l := by
  induction idx generalizing l with
  | zero => simp [removeFirstById, hs]
  | succ n ih =>
      cases l with
      | nil => simp at hle
      | cons t rest =>
          have ht : t.id ≠ sid := h t (by simp)
          rw [List.insertIdx_succ_cons]
          simp only [removeFirstById, if_neg ht]
          exact congrArg (List.cons t)
            (ih rest (fun u hu => h u (by simp [hu])) (by simpa using hle))

lemma any_id_insertIdx (sid : String) (s : Shape) (idx : Nat) (l : List Shape)
    (hs : s.id = sid) (hle : idx ≤ l.length) :
    (l.insertIdx idx s).any (fun t => t.id = sid) = true := by
  induction idx generalizing l with
  | zero => simp [hs]
  | succ n ih =>
      cases l with
      | nil => simp at hle
      | cons t rest =>
          rw [List.insertIdx_succ_cons]
          simp only [List.any_cons]
          rw [ih rest (by simpa using hle)]
          simp

/-- C10: for every input z, setZoom leaves the zoom factor inside the closed
interval from 0.1 to 5, and zoomIn and zoomOut, which route through setZoom,
keep the factor inside the same interval. -/
theorem C10_zoom_clamped (e : Engine) (z : Num) :
    (1 / 10 ≤ (e.setZoom z).zoom ∧ (e.setZoom z).zoom ≤ 5) ∧
    (1 / 10 ≤ e.zoomIn.zoom ∧ e.zoomIn.zoom ≤ 5) ∧
    (1 / 10 ≤ e.zoomOut.zoom ∧ e.zoomOut.zoom ≤ 5) := by
  have h : ∀ w : Num, 1 / 10 ≤ max (1 / 10) (min 5 w) ∧ max (1 / 10) (min 5 w) ≤ 5 :=
    fun w => ⟨le_max_left _ _, max_le (by norm_num) (min_le_left _ _)⟩
  exact ⟨h z, h _, h _⟩

/-- C9: building a Group from any list of shapes and ungrouping it restores
every member to exactly its original world coordinates; the group-local
conversion round-trips losslessly. -/
theorem C9_group_ungroup_roundtrip (amb : Ambient) (shapes : List Shape) :
    (Group.ofShapes amb shapes).ungroup = shapes := by
  unfold Group.ofShapes Group.ungroup
  simp only [List.map_map, Function.comp_def]
  conv_rhs => rw [← List.map_id shapes]
  refine List.map_congr_left fun s _ => ?_
  simp

lemma History.applyOps_append (h : History) (l1 l2 : List HistOp) :
    h.applyOps (l1 ++ l2) = (h.applyOps l1).applyOps l2 :=
  List.foldl_append ..

lemma History.maxSize_applyOp (h : History) (op : HistOp) :
    (h.applyOp op).maxSize = h.maxSize := by
  cases op with
  | push a => rfl
  | stepUndo =>
      unfold History.applyOp History.undoStep
      cases h.undoStack.getLast? <;> rfl
  | stepRedo =>
      unfold History.applyOp History.redoStep
      cases h.redoStack.getLast? <;> rfl

lemma History.maxSize_applyOps (h : History) (ops : List HistOp) :
    (h.applyOps ops).maxSize = h.maxSize := by
  induction ops generalizing h with
  | nil => rfl
  | cons op t ih =>
      show ((h.applyOp op).applyOps t).maxSize = _
      rw [ih, History.maxSize_applyOp]

lemma History.depthInv_applyOp (h : History) (op : HistOp) (hh : h.depthInv) :
    (h.applyOp op).depthInv := by
  cases op with
  | push a =>
      unfold History.applyOp History.push History.depthInv
      unfold History.depthInv at hh
      by_cases hc : (h.undoStack ++ [a]).length > h.maxSize
      · simp only [if_pos hc]
        simp only [List.length_append, List.length_cons, List.length_nil] at hc ⊢
        simp [List.length_tail]
        omega
      · simp only [if_neg hc]
        simp only [List.length_append, List.length_cons, List.length_nil] at hc ⊢
        omega
  | stepUndo =>
      unfold History.applyOp History.undoStep
      unfold History.depthInv at hh ⊢
      cases hlast : h.undoStack.getLast? with
      | none => exact hh
      | some a =>
          have hne : h.undoStack ≠ [] := by
            intro hnil; rw [hnil] at hlast; simp at hlast
          simp only [List.length_dropLast, List.length_append, List.length_cons,
            List.length_nil]
          have hpos : 0 < h.undoStack.length := List.length_pos.mpr hne
          omega
  | stepRedo =>
      unfold History.applyOp History.redoStep
      unfold History.depthInv at hh ⊢
      cases hlast : h.redoStack.getLast? with
      | none => exact hh
      | some a =>
          have hne : h.redoStack ≠ [] := by
            intro hnil; rw [hnil] at hlast; simp at hlast
          simp only [List.length_dropLast, List.length_append, List.length_cons,
            List.length_nil]
          have hpos : 0 < h.redoStack.length := List.length_pos.mpr hne
          omega

lemma History.depthInv_applyOps (h : History) (ops : List HistOp) (hh : h.depthInv) :
    (h.applyOps ops).depthInv := by
  induction ops generalizing h with
  | nil => exact hh
  | cons op t ih =>
      show ((h.applyOp op).applyOps t).depthInv
      exact ih _ (History.depthInv_applyOp _ _ hh)

/-- C7: after any sequence of push, undo and redo calls starting from a fresh
history, the undo stack holds at most 50 commands; a push always leaves the
redo stack empty; and a push onto a full undo stack evicts the oldest entry
while appending the new command. -/
theorem C7_history_bounded (ops : List HistOp) (c : Action) :
    (History.new.applyOps ops).undoStack.length ≤ 50 ∧
    ((History.new.applyOps ops).push c).redoStack = [] ∧
    ((History.new.applyOps ops).undoStack.length = 50 →
      ((History.new.applyOps ops).push c).undoStack
        = (History.new.applyOps ops).undoStack.tail ++ [c]) := by
  have hmax : (History.new.applyOps ops).maxSize = 50 :=
    History.maxSize_applyOps _ _
  have hinv : (History.new.applyOps ops).depthInv :=
    History.depthInv_applyOps _ _ (by simp [History.new, History.depthInv])
  unfold History.depthInv at hinv
  rw [hmax] at hinv
  refine ⟨by omega, rfl, fun hfull => ?_⟩
  unfold History.push
  have hgt : ((History.new.applyOps ops).undoStack ++ [c]).length > 50 := by
    simp [hfull]
  simp only [hmax, if_pos hgt]
  cases hu : (History.new.applyOps ops).undoStack with
  | nil => rw [hu] at hfull; simp at hfull
  | cons a t => simp

set_option maxRecDepth 4000 in
/-- Witness for C7: after fifty pushes the undo stack is at its bound, a
further push leaves the redo stack empty and evicts the oldest command. -/
theorem C7_history_bounded_witness :
    (History.new.applyOps opsC7).undoStack.length ≤ 50 ∧
    ((History.new.applyOps opsC7).push (.addShape shapeA)).redoStack = [] ∧
    ((History.new.applyOps opsC7).push (.addShape shapeA)).undoStack
      = (History.new.applyOps opsC7).undoStack.tail ++ [.addShape shapeA] :=
  ⟨(C7_history_bounded opsC7 (.addShape shapeA)).1,
   (C7_history_bounded opsC7 (.addShape shapeA)).2.1,
   (C7_history_bounded opsC7 (.addShape shapeA)).2.2 (by decide)⟩

/-- Core reconstruction lemma: for a well-formed shape, the per-class
fromJSON applied to its portable record rebuilds the shape exactly, except
that the id is the freshly generated one. -/
lemma fromJSON_toJSON_of_wf (s : Shape) (freshId : String) (h : ShapeWF s) :
    Shape.fromJSON freshId s.toJSON = some { s with id := freshId } := by
  obtain ⟨hsw, hfc, hsc, hv⟩ := h
  cases s with
  | mk sid x y rot fc sc sw op cr vis v =>
      cases v with
      | rectangle w ht =>
          simp [Shape.toJSON, Shape.fromJSON, Variant.typeName, ShapeRecord.toProps,
            mkRectangle, mkShapeBase, jsOrNum_some_zero,
            jsOrNum_some_of_ne _ _ hsw, jsOrStr_some_of_ne _ _ hfc,
            jsOrStr_some_of_ne _ _ hsc]
      | circle r =>
          simp [Shape.toJSON, Shape.fromJSON, Variant.typeName, ShapeRecord.toProps,
            mkCircle, mkShapeBase, jsOrNum_some_zero,
            jsOrNum_some_of_ne _ _ hsw, jsOrStr_some_of_ne _ _ hfc,
            jsOrStr_some_of_ne _ _ hsc]
      | line a b c d =>
          obtain ⟨hx, hy⟩ := hv
          simp [Shape.toJSON, Shape.fromJSON, Variant.typeName, ShapeRecord.toProps,
            mkLine, mkShapeBase, jsOrNum_some_zero, ← hx, ← hy,
            jsOrNum_some_of_ne _ _ hsw, jsOrStr_some_of_ne _ _ hfc,
            jsOrStr_some_of_ne _ _ hsc]
      | text t fs ff =>
          obtain ⟨ht, hfs, hff⟩ := hv
          simp [Shape.toJSON, Shape.fromJSON, Variant.typeName, ShapeRecord.toProps,
            mkText, mkShapeBase, jsOrNum_some_zero,
            jsOrNum_some_of_ne _ _ hsw, jsOrStr_some_of_ne _ _ hfc,
            jsOrStr_some_of_ne _ _ hsc, jsOrStr_some_of_ne _ _ ht,
            jsOrNum_some_of_ne _ _ hfs, jsOrStr_some_of_ne _ _ hff]
      | star o i pts =>
          obtain ⟨hi, hpts⟩ := hv
          simp [Shape.toJSON, Shape.fromJSON, Variant.typeName, ShapeRecord.toProps,
            mkStar, mkShapeBase, jsOrNum_some_zero, ← hi,
            jsOrNum_some_of_ne _ _ hsw, jsOrStr_some_of_ne _ _ hfc,
            jsOrStr_some_of_ne _ _ hsc, jsOrNum_some_of_ne _ _ hpts]
      | triangle sz =>
          simp [Shape.toJSON, Shape.fromJSON, Variant.typeName, ShapeRecord.toProps,
            mkTriangle, mkShapeBase, jsOrNum_some_zero,
            jsOrNum_some_of_ne _ _ hsw, jsOrStr_some_of_ne _ _ hfc,
            jsOrStr_some_of_ne _ _ hsc]
      | arrow w ht =>
          simp [Shape.toJSON, Shape.fromJSON, Variant.typeName, ShapeRecord.toProps,
            mkArrow, mkShapeBase, jsOrNum_some_zero,
            jsOrNum_some_of_ne _ _ hsw, jsOrStr_some_of_ne _ _ hfc,
            jsOrStr_some_of_ne _ _ hsc]

/-- C1 (amended): for every shape whose style fields are non-falsy and whose
variant payload is consistent with its constructor (ShapeWF), serializing,
reconstructing through Shape.fromJSON, and serializing again yields the
first record with its id replaced by the freshly generated one; every other
attribute and the variant tag are preserved. -/
theorem C1_roundtrip_modulo_id (s : Shape) (freshId : String) (h : ShapeWF s) :
    (Shape.fromJSON freshId s.toJSON).map Shape.toJSON
      = some { s.toJSON with id := freshId } := by
  rw [fromJSON_toJSON_of_wf s freshId h]
  simp [toJSON_set_id]

/-- C1 counterexample: reconstructing the record with id a under a freshly
generated id b and serializing again does not reproduce the first record,
because the base constructor generates a new id and never reads data.id. -/
theorem C1_counterexample :
    (Shape.fromJSON "b" recA).map Shape.toJSON ≠ some recA := by decide

/-- Witness for C1: the amended round trip evaluated at a concrete
rectangle. -/
theorem C1_roundtrip_modulo_id_witness :
    ShapeWF shapeW ∧
    (Shape.fromJSON "b" shapeW.toJSON).map Shape.toJSON
      = some { shapeW.toJSON with id := "b" } :=
  ⟨by decide, C1_roundtrip_modulo_id shapeW "b" (by decide)⟩

lemma rebuildAll_of_wf (ss : List Shape) (ids : List String)
    (hwf : ∀ s ∈ ss, ShapeWF s) :
    rebuildAll ((ss.map Shape.toJSON).zip ids)
      = some ((ss.zip ids).map fun p => { p.1 with id := p.2 }) := by
  induction ss generalizing ids with
  | nil => simp [rebuildAll]
  | cons s t ih =>
      cases ids with
      | nil => simp [rebuildAll]
      | cons i it =>
          simp only [List.map_cons, List.zip_cons_cons, rebuildAll]
          rw [fromJSON_toJSON_of_wf s i (hwf s (by simp))]
          rw [show List.zipWith Prod.mk (List.map Shape.toJSON t) it
                = (List.map Shape.toJSON t).zip it from rfl]
          rw [ih it fun u hu => hwf u (by simp [hu])]
          rfl

/-- C3 (amended): on receiving a sync snapshot built from the sender, a peer
whose local shape list is empty replaces its scene with the rebuilt snapshot
where each shape record equals the corresponding record of the sender with
its id replaced by a freshly generated one, and adopts the snapshot zoom and
pan; a peer whose local shape list is non-empty leaves its scene completely
unchanged. -/
theorem C3_sync_adopt_or_ignore (sender receiver : Engine) (freshIds : List String)
    (hwf : ∀ s ∈ sender.shapes, ShapeWF s) :
    (receiver.shapes = [] → sender.zoom ≠ 0 →
      ((Collaboration.handleSync receiver (Collaboration.syncMessage sender)
          freshIds).shapes.map Shape.toJSON
         = (sender.shapes.zip freshIds).map (fun p => { p.1.toJSON with id := p.2 }) ∧
       (Collaboration.handleSync receiver (Collaboration.syncMessage sender)
          freshIds).zoom = sender.zoom ∧
       (Collaboration.handleSync receiver (Collaboration.syncMessage sender)
          freshIds).pan = sender.pan)) ∧
    (receiver.shapes ≠ [] →
      Collaboration.handleSync receiver (Collaboration.syncMessage sender) freshIds
        = receiver) := by
  constructor
  · intro hempty hzoom
    unfold Collaboration.handleSync Collaboration.syncMessage
    rw [rebuildAll_of_wf sender.shapes freshIds hwf]
    simp only [hempty, List.length_nil, gt_iff_lt, lt_self_iff_false, if_false]
    refine ⟨?_, ?_, ?_⟩
    · simp [List.map_map, Function.comp_def, toJSON_set_id]
    · simp [hzoom]
    · trivial
  · intro hne
    have hpos : 0 < receiver.shapes.length := List.length_pos.mpr hne
    unfold Collaboration.handleSync
    simp [hpos]

/-- C3 counterexample: after the empty peer adopts the snapshot, its shape
list does not equal the sender list by portable-record equality, because
reconstruction generated a fresh id for the shape. -/
theorem C3_counterexample :
    (Collaboration.handleSync receiverE (Collaboration.syncMessage senderE)
        ["b"]).shapes.map Shape.toJSON
      ≠ senderE.shapes.map Shape.toJSON := by decide

/-- Witness for C3: the amended sync behavior evaluated at the concrete
sender and receiver, in both the adopt and the ignore directions. -/
theorem C3_sync_adopt_or_ignore_witness :
    ((Collaboration.handleSync receiverE (Collaboration.syncMessage senderE)
        ["b"]).shapes.map Shape.toJSON
       = (senderE.shapes.zip ["b"]).map (fun p => { p.1.toJSON with id := p.2 }) ∧
     (Collaboration.handleSync receiverE (Collaboration.syncMessage senderE)
        ["b"]).zoom = senderE.zoom ∧
     (Collaboration.handleSync receiverE (Collaboration.syncMessage senderE)
        ["b"]).pan = senderE.pan) ∧
    Collaboration.handleSync senderE (Collaboration.syncMessage receiverE) ["b"]
      = senderE :=
  ⟨(C3_sync_adopt_or_ignore senderE receiverE ["b"] (by decide)).1 rfl (by decide),
   (C3_sync_adopt_or_ignore receiverE senderE ["b"] (by decide)).2 (by decide)⟩

/-- C8: on receiving a shape-update message, when no local shape has the
given identity the message is dropped and the engine is left completely
unchanged; when a local shape has the identity, the first such shape has the
patch shallow-merged onto it and everything else (the other shapes, the
selection, the camera) is untouched. -/
theorem C8_shape_update (e : Engine) (sid : String) (p : Patch) :
    ((∀ s ∈ e.shapes, s.id ≠ sid) → Collaboration.handleShapeUpdate e sid p = e) ∧
    (∀ pre s post, e.shapes = pre ++ s :: post → (∀ t ∈ pre, t.id ≠ sid) →
      s.id = sid →
      Collaboration.handleShapeUpdate e sid p
        = { e with shapes := pre ++ s.assign p :: post }) := by
  constructor
  · intro h
    unfold Collaboration.handleShapeUpdate
    have hany : e.shapes.any (fun s => s.id = sid) = false := by
      simp only [List.any_eq_false, decide_eq_true_eq]
      exact h
    simp [hany]
  · intro pre s post hsplit hpre hs
    unfold Collaboration.handleShapeUpdate
    have hany : e.shapes.any (fun t => t.id = sid) = true := by
      rw [hsplit]
      simp [hs]
    rw [if_pos hany, hsplit, updateFirstById_append sid _ pre s post hpre hs]

/-- Witness for C8: the drop direction at an unknown id and the merge
direction at the known id, both at the concrete engine. -/
theorem C8_shape_update_witness :
    Collaboration.handleShapeUpdate engineC8 "zz" patchC8 = engineC8 ∧
    Collaboration.handleShapeUpdate engineC8 "s1" patchC8
      = { engineC8 with shapes := [] ++ shapeS1.assign patchC8 :: [] } :=
  ⟨(C8_shape_update engineC8 "zz" patchC8).1 (by decide),
   (C8_shape_update engineC8 "s1" patchC8).2 [] shapeS1 [] rfl (by decide) (by decide)⟩

/-- C6: a string that fails to parse aborts before any mutation and reports
failure, but a parsed document without a shapes array (a corrupt document
with a missing required field) returns false only after the shape list has
already been cleared, so the current scene is not left unchanged. -/
theorem C6_import_clears_scene :
    engineC6.importFromJSON .malformed [] = (false, engineC6) ∧
    engineC6.importFromJSON (.doc Option.none Option.none Option.none) []
      = (false, { engineC6 with shapes := [] }) ∧
    ({ engineC6 with shapes := [] } : Engine) ≠ engineC6 := by decide

lemma removeShape_shapes (e : Engine) (sid : String) :
    (e.removeShape sid).shapes
      = if e.shapes.any (fun t => t.id = sid) then removeFirstById sid e.shapes
        else e.shapes := by
  unfold Engine.removeShape
  split <;> rfl

lemma execute_revert_of_applied (a : Action) (e : Engine) (h : a.appliedIn e) :
    (a.execute (a.revert e)).shapes = e.shapes := by
  cases a with
  | addShape s =>
      obtain ⟨pre, hsplit, hpre⟩ := h
      have hany : e.shapes.any (fun t => t.id = s.id) = true := by
        rw [hsplit]; simp
      show (e.removeShape s.id).shapes ++ [s] = e.shapes
      rw [removeShape_shapes, if_pos hany, hsplit,
        removeFirstById_append s.id pre s [] hpre rfl]
      simp
  | removeShape s idx =>
      obtain ⟨habs, hle⟩ := h
      have hany : (e.shapes.insertIdx idx s).any (fun t => t.id = s.id) = true :=
        any_id_insertIdx s.id s idx e.shapes rfl hle
      show (({ e with shapes := e.shapes.insertIdx idx s } : Engine).removeShape
        s.id).shapes = e.shapes
      rw [removeShape_shapes]
      show (if (e.shapes.insertIdx idx s).any (fun t => t.id = s.id)
          then removeFirstById s.id (e.shapes.insertIdx idx s)
          else e.shapes.insertIdx idx s) = e.shapes
      rw [if_pos hany]
      exact removeFirstById_insertIdx s.id s idx e.shapes habs rfl hle
  | modifyShape sid oldProps newProps =>
      obtain ⟨hdom, hold, hnew, hfix⟩ := h
      show updateFirstById sid (fun t => t.assign newProps)
        (updateFirstById sid (fun t => t.assign oldProps) e.shapes) = e.shapes
      rw [updateFirstById_comp sid _ _ (fun t => assign_id_of_none t oldProps hold)]
      rw [updateFirstById_congr sid _ (fun t => t.assign newProps)
        (fun t => assign_assign t oldProps newProps hdom)]
      exact hfix

/-- C4: for every command that has been pushed onto the undo stack and whose
effect is still in force in the scene, calling undo and then redo leaves the
Scene Store shape list identical to the state immediately before the undo
(hence equal property by property and by portable record), and restores the
history stacks exactly. -/
theorem C4_undo_redo_restores (st : AppState) (rest : List Action) (a : Action)
    (hstack : st.history.undoStack = rest ++ [a])
    (happ : a.appliedIn st.engine) :
    (DesignApp.redo (DesignApp.undo st)).engine.shapes = st.engine.shapes ∧
    (DesignApp.redo (DesignApp.undo st)).history = st.history := by
  have hlast : st.history.undoStack.getLast? = some a := by rw [hstack]; simp
  have hdrop : st.history.undoStack.dropLast = rest := by rw [hstack]; simp
  have hu : st.history.undoStep
      = (some a, ⟨rest, st.history.redoStack ++ [a], st.history.maxSize⟩) := by
    unfold History.undoStep
    rw [hlast]
    simp [hdrop]
  have hundo : DesignApp.undo st
      = { st with
            history := ⟨rest, st.history.redoStack ++ [a], st.history.maxSize⟩
            engine := a.revert st.engine } := by
    unfold DesignApp.undo
    rw [hu]
  have hstep : (⟨rest, st.history.redoStack ++ [a], st.history.maxSize⟩ :
      History).redoStep
      = (some a, ⟨rest ++ [a], st.history.redoStack, st.history.maxSize⟩) := by
    unfold History.redoStep
    simp
  rw [hundo]
  unfold DesignApp.redo
  simp only [hstep]
  constructor
  · exact execute_revert_of_applied a st.engine happ
  · show (⟨rest ++ [a], st.history.redoStack, st.history.maxSize⟩ : History)
      = st.history
    rw [← hstack]

/-- Witness for C4: undo then redo at the concrete state restores the shape
list and the history stacks. -/
theorem C4_undo_redo_restores_witness :
    (DesignApp.redo (DesignApp.undo stC4)).engine.shapes = stC4.engine.shapes ∧
    (DesignApp.redo (DesignApp.undo stC4)).history = stC4.history :=
  C4_undo_redo_restores stC4 [] actC4 rfl ⟨by decide, rfl, rfl, by decide⟩

lemma moveRotate_history (amb : Ambient) (st : AppState) (pos : Num × Num) :
    (moveRotate amb st pos).history = st.history := by
  unfold moveRotate
  split
  · split <;> rfl
  · rfl

lemma moveResize_history (amb : Ambient) (st : AppState) (ev : MouseEv)
    (pos : Num × Num) : (moveResize amb st ev pos).history = st.history := by
  unfold moveResize
  split <;> rfl

lemma movePan_history (st : AppState) (ev : MouseEv) :
    (movePan st ev).history = st.history := by
  unfold movePan
  split <;> rfl

lemma moveDrag_history (st : AppState) (pos : Num × Num) :
    (moveDrag st pos).history = st.history := by
  unfold moveDrag
  split <;> rfl

lemma moveDraw_history (amb : Ambient) (st : AppState) (ev : MouseEv)
    (pos : Num × Num) : (moveDraw amb st ev pos).history = st.history := by
  unfold moveDraw
  split
  · split_ifs <;> rfl
  · rfl

lemma handleMouseMove_history (amb : Ambient) (st : AppState) (ev : MouseEv) :
    (DesignApp.handleMouseMove amb st ev).history = st.history := by
  unfold DesignApp.handleMouseMove
  split_ifs <;>
    first
      | rfl
      | apply moveRotate_history
      | apply moveResize_history
      | apply movePan_history
      | apply moveDrag_history
      | apply moveDraw_history

/-- C2 (amended): at pointer-up a completed drag gesture pushes exactly one
command covering the entire gesture (the captured initial position to the
final position); a completed resize gesture and a completed rotate gesture
push no command at all; and no command is ever pushed during pointer-move. -/
theorem C2_commands_per_gesture (amb : Ambient) (freshTextId : String)
    (st : AppState) (ev : MouseEv) :
    (st.isPanning = false → st.isRotating = false → st.isResizing = true →
      (DesignApp.handleMouseUp amb freshTextId st ev).history = st.history) ∧
    (st.isPanning = false → st.isRotating = true →
      (DesignApp.handleMouseUp amb freshTextId st ev).history = st.history) ∧
    (∀ did ip ds,
      st.isPanning = false → st.isRotating = false → st.isResizing = false →
      ¬(st.isSelecting ∧ st.selectionStart.isSome) →
      st.isDragging = true → st.draggedShape = some did →
      st.dragInitialPos = some ip → findById did st.engine.shapes = some ds →
      (DesignApp.handleMouseUp amb freshTextId st ev).history
        = st.history.push (Action.modifyShape did
            { x := some ip.1, y := some ip.2 }
            { x := some ds.x, y := some ds.y })) ∧
    (DesignApp.handleMouseMove amb st ev).history = st.history := by
  refine ⟨?_, ?_, ?_, handleMouseMove_history amb st ev⟩
  · intro h1 h2 h3
    unfold DesignApp.handleMouseUp
    simp [h1, h2, h3]
  · intro h1 h2
    unfold DesignApp.handleMouseUp
    simp [h1, h2]
  · intro did ip ds h1 h2 h3 hsel h4 h5 h6 h7
    unfold DesignApp.handleMouseUp upDrag
    simp [h1, h2, h3, h4, h5, h6, h7, hsel]

/-- C2 counterexample: completing the resize gesture at pointer-up pushes no
command at all; the undo stack stays empty instead of receiving exactly one
command for the gesture. -/
theorem C2_counterexample :
    stC2.isResizing = true ∧
    (DesignApp.handleMouseUp ambZ "t" stC2 evZ).history.undoStack = [] := by decide

/-- Witness for C2: the amended per-gesture command accounting evaluated at
concrete resize, rotate and drag states, plus a concrete pointer-move. -/
theorem C2_commands_per_gesture_witness :
    (DesignApp.handleMouseUp ambZ "t" stC2 evZ).history = stC2.history ∧
    (DesignApp.handleMouseUp ambZ "t" stC2rot evZ).history = stC2rot.history ∧
    (DesignApp.handleMouseUp ambZ "t" stC2drag evZ).history
      = stC2drag.history.push (Action.modifyShape "a"
          { x := some 0, y := some 0 } { x := some shapeA.x, y := some shapeA.y }) ∧
    (DesignApp.handleMouseMove ambZ stC2 evZ).history = stC2.history :=
  ⟨(C2_commands_per_gesture ambZ "t" stC2 evZ).1 rfl rfl rfl,
   (C2_commands_per_gesture ambZ "t" stC2rot evZ).2.1 rfl rfl,
   (C2_commands_per_gesture ambZ "t" stC2drag evZ).2.2.1 "a" (0, 0) shapeA
     rfl rfl rfl (by decide) rfl rfl rfl (by decide),
   (C2_commands_per_gesture ambZ "t" stC2 evZ).2.2.2⟩

/-- C5 counterexample: the resize itself produces width 120, height 120 and
center 10 10 as the claim states, but the subsequent undo does not restore
the 100 by 100 rectangle at the origin: since the resize pushed no command,
undo reverts the add command and removes the rectangle from the scene. -/
theorem C5_counterexample :
    stC5move.engine.shapes
      = [{ rectC5 with x := 10, y := 10, variant := .rectangle 120 120 }] ∧
    stC5undo.engine.shapes = [] ∧
    stC5undo.engine.shapes ≠ [rectC5] := by
  refine ⟨?_, ?_, ?_⟩ <;>
    norm_num [stC5move, stC5up, stC5undo, stC5, engineC5, rectC5, rsSE, ambZ, evC5,
      DesignApp.handleMouseMove, DesignApp.handleMouseUp, DesignApp.undo,
      moveResize, moveRotate, movePan, moveDrag, moveDraw,
      resizeRectangle, resizeCircle, resizeStar, resizeTriangle,
      Engine.screenToCanvas, updateFirstById, findById, Variant.typeName,
      Shape.setWidth, Shape.setHeight, Shape.getWidth, Shape.getHeight,
      History.undoStep, History.push, History.new,
      Action.revert, Action.execute, Engine.removeShape, removeFirstById,
      upMarquee, upDrag, upDraw, upText, Engine.addShape]

/-- C5 (amended): the southeast resize by plus 20 plus 20 with no modifier
yields width 120, height 120 and center 10 10; pointer-up commits the
gesture without pushing any command, so the following undo pops the add
command and empties the scene rather than restoring the original size. -/
theorem C5_resize_and_undo :
    stC5move.engine.shapes
      = [{ rectC5 with x := 10, y := 10, variant := .rectangle 120 120 }] ∧
    stC5up.history = stC5.history ∧
    stC5undo.engine.shapes = [] ∧
    stC5undo.history.undoStack = [] := by
  refine ⟨?_, ?_, ?_, ?_⟩ <;>
    norm_num [stC5move, stC5up, stC5undo, stC5, engineC5, rectC5, rsSE, ambZ, evC5,
      DesignApp.handleMouseMove, DesignApp.handleMouseUp, DesignApp.undo,
      moveResize, moveRotate, movePan, moveDrag, moveDraw,
      resizeRectangle, resizeCircle, resizeStar, resizeTriangle,
      Engine.screenToCanvas, updateFirstById, findById, Variant.typeName,
      Shape.setWidth, Shape.setHeight, Shape.getWidth, Shape.getHeight,
      History.undoStep, History.push, History.new,
      Action.revert, Action.execute, Engine.removeShape, removeFirstById,
      upMarquee, upDrag, upDraw, upText, Engine.addShape]

end Figma

